import Mathlib

/-!
# leaflet-bootstrap-contextmenu: a shallow embedding

Two source files are embedded.

* `src/leaflet-bootstrap-contextmenu.js` (namespace `BsContextmenu`): the options mixin
  (`setContextmenuOptions`, `addContextmenuItems`, ...) and the map handler
  `L.Map.ContextMenu` (`_show`, `_hide`).
* `src/_leaflet-contextmenu-extend.js` (namespace `ContextmenuExtend`): `returnMethod`,
  `defaultContextmenuCheckboxCallback`, `updateContextmenuElement`, `onContextmenuShow`.

JavaScript objects live in a heap indexed by references; a method that mutates `this`
takes the heap and the reference of `this` and returns the new heap.  A thrown `TypeError`
and a loop that does not end are results of type `Except JsError`.
-/

namespace BsContextmenu

/-- A reference to a JavaScript object (layer, map, ...). -/
abbrev Ref := Nat

/-- Outcomes of a call other than a normal return. -/
inductive JsError where
  | typeError
  | nonTermination
deriving DecidableEq, Repr

/-- A geographical position; only passed around, never computed with. -/
structure LatLng where
  lat : Int
  lng : Int
deriving DecidableEq, Repr

/-- One contextmenu item as the user stores it (doc comment, lines 16-22).
`onClick` is the identity of the user's function, `none` when omitted.
`_map` is the item's own property of that name (absent on ordinary items): inside the inner
`$.each` callback of `_show`, `this` is the item being visited, so `this._map` reads it. -/
structure Item where
  id : Option String
  icon : String
  text : String
  onClick : Option Nat
  context : Option Ref
  dontCloseOnClick : Option Bool
  _map : Option Ref
deriving DecidableEq, Repr

/-- The object `contextmenuOptions` (lines 25-29); `width` is read by `_show`. -/
structure Options where
  items : List Item
  header : String
  parent : Option Ref
  width : Option Nat
deriving DecidableEq, Repr

/-- The default `contextmenuOptions` of lines 25-29. -/
def contextmenuOptions : Options :=
  { items := [], header := "", parent := none, width := none }

/-- The argument of `$.extend(this.contextmenuOptions, options)`: the properties present. -/
structure OptionsPatch where
  items : Option (List Item)
  header : Option String
  parent : Option (Option Ref)
  width : Option (Option Nat)

/-- A layer or a map, as far as this file reads it. `getLatLng` is `some p` when the object
has a method `getLatLng` (returning `p`), `getContainer` is the DOM element of a map. -/
structure Obj where
  contextmenuOptions : Option Options
  hasContextmenuEvent : Bool
  _map : Option Ref
  getLatLng : Option LatLng
  getContainer : Nat
  getCenter : LatLng

/-- The heap: what each reference points to. -/
abbrev Heap := Ref → Obj

/-- Write one object of the heap. -/
def Heap.set (h : Heap) (r : Ref) (o : Obj) : Heap :=
  fun x => if x = r then o else h x

/-- JavaScript truthiness of a string-valued property that may be absent. -/
def truthy : Option String → Bool
  | some s => s != ""
  | none => false

/-- The function `$.extend(target, options)` on `contextmenuOptions`. -/
def extend (target : Options) (options : OptionsPatch) : Options :=
  { items := options.items.getD target.items
    header := options.header.getD target.header
    parent := options.parent.getD target.parent
    width := options.width.getD target.width }

/-- The empty patch `{}`. -/
def emptyPatch : OptionsPatch :=
  { items := none, header := none, parent := none, width := none }

/-- The method `setContextmenuOptions` (lines 31-34). -/
def setContextmenuOptions (h : Heap) (self : Ref) (options : OptionsPatch) : Heap :=
  let o := h self
  let current := o.contextmenuOptions.getD contextmenuOptions
  h.set self { o with contextmenuOptions := some (extend current options) }

/-- The method `setContextmenuHeader` (lines 36-38). -/
def setContextmenuHeader (h : Heap) (self : Ref) (header : String) : Heap :=
  setContextmenuOptions h self { emptyPatch with header := some header }

/-- The method `setContextmenuParent` (lines 40-42). -/
def setContextmenuParent (h : Heap) (self : Ref) (parent : Option Ref) : Heap :=
  setContextmenuOptions h self { emptyPatch with parent := some parent }

/-- The argument `items` of `addContextmenuItems`: an array or a single item. -/
inductive ItemsArg where
  | single (item : Item)
  | array (items : List Item)

/-- The expression `$.isArray(items) ? items : [items]`. -/
def ItemsArg.toArray : ItemsArg → List Item
  | .single item => [item]
  | .array items => items

/-- The method `addContextmenuItems` (lines 44-59): the new heap and the returned reference. -/
def addContextmenuItems (h : Heap) (self : Ref) (items : ItemsArg) (prepend : Bool) :
    Heap × Ref :=
  let h1 := setContextmenuOptions h self emptyPatch
  let o := h1 self
  let opts := o.contextmenuOptions.getD contextmenuOptions
  let items := items.toArray
  let opts :=
    if prepend then { opts with items := items ++ opts.items }
    else { opts with items := opts.items ++ items }
  let o := { o with contextmenuOptions := some opts }
  let o :=
    if o._map.isSome && !o.hasContextmenuEvent then { o with hasContextmenuEvent := true }
    else o
  (h1.set self o, self)

/-- The method `appendContextmenuItems` (line 61). -/
def appendContextmenuItems (h : Heap) (self : Ref) (items : ItemsArg) : Heap × Ref :=
  addContextmenuItems h self items false

/-- The method `prependContextmenuItems` (line 62). -/
def prependContextmenuItems (h : Heap) (self : Ref) (items : ItemsArg) : Heap × Ref :=
  addContextmenuItems h self items true

/-- The function `$.proxy(function(){ onClick(latlng, _this); _this._hide(); }, ctx)` built
at lines 185-191: the captured user function, the captured position and the `this` the
outer function is bound to. -/
structure Proxy where
  onClick : Nat
  latlng : LatLng
  boundThis : Option Ref
deriving DecidableEq, Repr

/-- An item of the list handed to `$.bsButtonGroup`: the copy `$.extend({}, item)` with `id`
and `onClick` replaced (lines 179-192). `id = none` is `null`. -/
structure BuiltItem where
  id : Option String
  icon : String
  text : String
  onClick : Option Proxy
  context : Option Ref
  dontCloseOnClick : Option Bool
  _map : Option Ref
deriving DecidableEq, Repr

/-- An entry of a button-group list: a pushed header or a built item. -/
inductive Entry where
  | header (h : String)
  | item (b : BuiltItem)
deriving DecidableEq, Repr

/-- The options given to `$.bsButtonGroup` (lines 197-203). -/
structure ButtonGroup where
  list : List Entry
  small : Bool
  vertical : Bool
  fullWidth : Bool
  border : Bool
deriving DecidableEq, Repr

/-- The body of the inner `$.each` (lines 179-194) for one item: the built item and the new
value of `nextId`. -/
def buildItem (latlng : LatLng) (nextId : Nat) (item : Item) : BuiltItem × Nat :=
  match item.onClick with
  | none =>
      ({ id := none, icon := item.icon, text := item.text, onClick := none,
         context := item.context, dontCloseOnClick := item.dontCloseOnClick,
         _map := item._map }, nextId)
  | some f =>
      let idNext : Option String × Nat :=
        if truthy item.id then (item.id, nextId)
        else (some ("itemId" ++ toString nextId), nextId + 1)
      ({ id := idNext.1, icon := item.icon, text := item.text,
         onClick := some { onClick := f, latlng := latlng,
                           boundThis := item.context <|> item._map },
         context := item.context, dontCloseOnClick := item.dontCloseOnClick,
         _map := item._map }, idNext.2)

/-- The inner `$.each` over `contextmenuOptions.items` (lines 178-195). -/
def buildItems (latlng : LatLng) : Nat → List Item → List BuiltItem × Nat
  | nextId, [] => ([], nextId)
  | nextId, item :: rest =>
      let r := buildItem latlng nextId item
      let rs := buildItems latlng r.2 rest
      (r.1 :: rs.1, rs.2)

/-- Read `obj.contextmenuOptions`; using it when undefined is a `TypeError`. -/
def optionsOf (h : Heap) (obj : Ref) : Except JsError Options :=
  match (h obj).contextmenuOptions with
  | some o => .ok o
  | none => .error .typeError

/-- The loop `while (parent){ objectList.push(parent); parent = ...parent; }`
(lines 155-158), with fuel. -/
def parentLoop (h : Heap) : Nat → Option Ref → Except JsError (List Ref)
  | _, none => .ok []
  | 0, some _ => .error .nonTermination
  | fuel + 1, some p =>
      match optionsOf h p with
      | .error e => .error e
      | .ok o =>
          match parentLoop h fuel o.parent with
          | .error e => .error e
          | .ok rest => .ok (p :: rest)

/-- The outer `$.each` over `objectList` (lines 168-205): `many` is
`objectList.length > 1`; returns `contentList` and the final `width`. -/
def buildGroups (h : Heap) (latlng : LatLng) (many : Bool) :
    List Ref → Nat → Nat → Except JsError (List ButtonGroup × Nat)
  | [], _, width => .ok ([], width)
  | obj :: rest, nextId, width =>
      match optionsOf h obj with
      | .error e => .error e
      | .ok o =>
          let width := max width (o.width.getD 0)
          let head : List Entry :=
            if many && !o.items.isEmpty && truthy (some o.header) then [Entry.header o.header]
            else []
          let built := buildItems latlng nextId o.items
          match buildGroups h latlng many rest built.2 width with
          | .error e => .error e
          | .ok r =>
              .ok ({ list := head ++ built.1.map Entry.item, small := true, vertical := true,
                     fullWidth := true, border := true } :: r.1, r.2)

/-- The marker `contextmenuMarker`. -/
structure Marker where
  latlng : LatLng
  opacity : Nat
deriving DecidableEq, Repr

/-- The popup `this.popup`. -/
structure Popup where
  width : Nat
  className : String
  content : List ButtonGroup
  latlng : LatLng
  _source : Option Ref
  isOpen : Bool
deriving DecidableEq, Repr

/-- The handler object `L.Map.ContextMenu`. -/
structure ContextMenu where
  _map : Ref
  contextmenuMarker : Option Marker
  popup : Option Popup
deriving DecidableEq, Repr

/-- The contextmenu event: `latlng`, `calledFrom` (set by `Layer.onContextmenu`, line 95) and
`originalEvent.target`. -/
structure Event where
  latlng : LatLng
  calledFrom : Option Ref
  originalTarget : Nat

/-- The variable `source` of line 145: `event.calledFrom || this._map`. -/
def eventSource (cm : ContextMenu) (event : Event) : Ref :=
  event.calledFrom.getD cm._map

/-- The variable `firedOnMap` of line 146. -/
def firedOnMap (h : Heap) (cm : ContextMenu) (event : Event) : Bool :=
  (h cm._map).getContainer == event.originalTarget

/-- The variable `latlng` after lines 144-150. -/
def menuLatLng (h : Heap) (cm : ContextMenu) (event : Event) : LatLng :=
  if !firedOnMap h cm event then
    match (h (eventSource cm event)).getLatLng with
    | some p => p
    | none => event.latlng
  else event.latlng

/-- The list `objectList` of lines 153-161. -/
def objectList (fuel : Nat) (h : Heap) (cm : ContextMenu) (event : Event) :
    Except JsError (List Ref) :=
  let source := eventSource cm event
  match optionsOf h source with
  | .error e => .error e
  | .ok so =>
      match parentLoop h fuel so.parent with
      | .error e => .error e
      | .ok parents =>
          .ok (source :: parents ++ (if !firedOnMap h cm event then [cm._map] else []))

/-- The method `_show` (lines 141-226). -/
def _show (fuel : Nat) (h : Heap) (cm : ContextMenu) (event : Event) :
    Except JsError ContextMenu :=
  let marker : Marker :=
    cm.contextmenuMarker.getD { latlng := (h cm._map).getCenter, opacity := 1 }
  let latlng := menuLatLng h cm event
  let source := eventSource cm event
  let firedOnMap := firedOnMap h cm event
  match objectList fuel h cm event with
  | .error e => .error e
  | .ok objs =>
      match buildGroups h latlng (decide (1 < objs.length)) objs 0 100 with
      | .error e => .error e
      | .ok r =>
          let contentList := r.1
          let width := r.2
          let marker : Marker :=
            { marker with latlng := latlng,
                          opacity := if firedOnMap && !contentList.isEmpty then 100 else 0 }
          if contentList.isEmpty then
            .ok { cm with contextmenuMarker := some marker }
          else
            .ok { cm with
                  contextmenuMarker := some marker
                  popup := some
                    { width := width, className := "leaflet-popup-contextmenu",
                      content := contentList, latlng := latlng,
                      _source :=
                        if firedOnMap then none
                        else if (h source).getLatLng.isSome then some source else none,
                      isOpen := true } }

/-- The method `_hide` (lines 231-236). -/
def _hide (cm : ContextMenu) : ContextMenu :=
  { cm with
    popup := cm.popup.map (fun p => if p.isOpen then { p with isOpen := false } else p)
    contextmenuMarker := cm.contextmenuMarker.map (fun m => { m with opacity := 0 }) }

/-- What a click makes happen, in order: a call of a user function with its `this` and its
first argument, and a call of `_hide`. -/
inductive Effect where
  | call (f : Nat) (thisArg : Option Ref) (latlng : LatLng)
  | hide
deriving DecidableEq, Repr

/-- A click on a built item runs its `onClick`, the proxy of lines 185-191. Its body calls
the user function as `onClick( latlng, _this )`: a plain call, which in strict-mode code
(line 11) has `this` undefined (`none`) whatever the proxy is bound to; then `_this._hide()`.
An item without `onClick` has nothing to run. -/
def click (cm : ContextMenu) (b : BuiltItem) : ContextMenu × List Effect :=
  match b.onClick with
  | none => (cm, [])
  | some p => (_hide cm, [Effect.call p.onClick none p.latlng, Effect.hide])

end BsContextmenu

namespace ContextmenuExtend

open BsContextmenu (Ref JsError)

/-- The JavaScript values this file handles: `undefined`, `null`, booleans, strings and
functions (a function is named by a number). -/
inductive Val where
  | undefined
  | null
  | bool (b : Bool)
  | str (s : String)
  | fn (f : Nat)
deriving DecidableEq, Repr

/-- JavaScript truthiness. -/
def Val.truthy : Val → Bool
  | .undefined => false
  | .null => false
  | .bool b => b
  | .str s => s != ""
  | .fn _ => true

/-- The property key a value is converted to in `context[method]`. -/
def Val.toKey : Val → String
  | .undefined => "undefined"
  | .null => "null"
  | .bool true => "true"
  | .bool false => "false"
  | .str s => s
  | .fn _ => "function"

/-- The comparison `v == 'literal'` against a non-numeric string literal: only an equal string
is equal. -/
def Val.eqLit (v : Val) (lit : String) : Bool :=
  match v with
  | .str s => s == lit
  | _ => false

/-- The comparison `a == b` of line 413 and 364 (group selection against an id): equal
values are equal and `undefined == null`; the numeric coercion of a boolean against a string
is left out, ids being non-numeric strings. -/
def Val.looseEq (a b : Val) : Bool :=
  match a, b with
  | .undefined, .null => true
  | .null, .undefined => true
  | a, b => decide (a = b)

/-- What the user's functions return: function, `this`, arguments. The functions are taken
to leave the menu elements alone. -/
abbrev World := Nat → Ref → List Val → Val

/-- The named properties of an object (`context[method]`); `Val.undefined` when absent. -/
abbrev Props := String → Val

/-- What a callback makes happen, in order. -/
inductive Effect where
  | call (f : Nat) (thisArg : Ref) (args : List Val)
  | updateContent
deriving DecidableEq, Repr

/-- The expression `typeof method == 'function' ? method : context[method]` (line 318). -/
def lookupFunc (context : Props) (method : Val) : Val :=
  match method with
  | .fn f => .fn f
  | m => context m.toKey

/-- The function `returnMethod` (lines 317-320): the returned value and the call made.
Applying a truthy value that is no function is a `TypeError`. -/
def returnMethod (w : World) (this : Ref) (context : Props) (method : Val) (arg : List Val) :
    Except JsError (Val × List Effect) :=
  let func := lookupFunc context method
  if func.truthy then
    match func with
    | .fn f => .ok (w f this arg, [Effect.call f this arg])
    | _ => .error .typeError
  else .ok (.null, [])

/-- The function `callMethod` (lines 321-323). -/
def callMethod (w : World) (this : Ref) (context : Props) (method : Val) (arg : List Val) :
    Except JsError (Val × List Effect) :=
  returnMethod w this context method arg

/-- The data attached to a menu element (`$el.data(...)`). -/
structure ElData where
  id : Val
  type : Val
  groupId : Val
  status : Val
  selected : Val
  onSelect : Val
deriving DecidableEq, Repr

/-- A menu element: its class list, `style.display`, the disabled state that
`contextmenu.setDisabled` sets, and its data. -/
structure Element where
  classes : List String
  display : String
  disabled : Bool
  data : ElData
deriving DecidableEq, Repr

/-- The jQuery method `hasClass`. -/
def Element.hasClass (el : Element) (c : String) : Bool :=
  decide (c ∈ el.classes)

/-- The jQuery method `addClass`. -/
def Element.addClass (el : Element) (c : String) : Element :=
  if el.hasClass c then el else { el with classes := el.classes ++ [c] }

/-- The jQuery method `removeClass`. -/
def Element.removeClass (el : Element) (c : String) : Element :=
  { el with classes := el.classes.filter (fun x => x != c) }

/-- The jQuery method `toggleClass(c, state)` with a boolean `state`. -/
def Element.toggleClassIf (el : Element) (c : String) (state : Bool) : Element :=
  if state then el.addClass c else el.removeClass c

/-- The jQuery method `toggleClass(c, state)`: a `state` that is not a boolean is ignored and
the class is toggled. -/
def Element.toggleClass (el : Element) (c : String) (state : Val) : Element :=
  match state with
  | .bool b => el.toggleClassIf c b
  | _ => if el.hasClass c then el.removeClass c else el.addClass c

/-- The constant `checkboxIconClass` (line 78). -/
def checkboxIconClass : String := "icon-" ++ "checkbox"

/-- The constant `checkboxCheckedIconClass` (line 79). -/
def checkboxCheckedIconClass : String := "icon-" ++ "checkbox" ++ "-checked"

/-- The constant `radioIconClass` (line 82). -/
def radioIconClass : String := "icon-" ++ "radio"

/-- The constant `radioCheckedIconClass` (line 83). -/
def radioCheckedIconClass : String := "icon-" ++ "radio" ++ "-checked"

/-- The class changes of `defaultContextmenuCheckboxCallback` (lines 338-345). -/
def checkboxToggle (el : Element) : Element :=
  let selected := !el.hasClass "selected"
  ((el.toggleClassIf "selected" selected).toggleClassIf checkboxIconClass (!selected)).toggleClassIf
    checkboxCheckedIconClass selected

/-- The function `defaultContextmenuCheckboxCallback` (lines 337-353) called with `this` and
the element `event.target`: the element afterwards, and the calls made or the error of
`callMethod`. `popupWithContextmenu` tells whether that variable is set. -/
def defaultContextmenuCheckboxCallback (w : World) (this : Ref) (context : Props)
    (popupWithContextmenu : Bool) (el : Element) : Element × Except JsError (List Effect) :=
  let selected := !el.hasClass "selected"
  let el1 := checkboxToggle el
  match callMethod w this context el1.data.onSelect [el1.data.id, Val.bool selected] with
  | .error e => (el1, .error e)
  | .ok r => (el1, .ok (r.2 ++ (if popupWithContextmenu then [Effect.updateContent] else [])))

/-- The first part of `updateContextmenuElement` (lines 406-419): the classes of a checkbox
or radio element are set from what its `selected` method returns. -/
def updateSelected (w : World) (this : Ref) (context : Props) (element : Element) :
    Except JsError Element :=
  let el_id := element.data.id
  let el_type := element.data.type
  if el_type.eqLit "checkbox" || el_type.eqLit "radio" then
    if el_type.eqLit "checkbox" then
      match returnMethod w this context element.data.selected [el_id] with
      | .error e => .error e
      | .ok r =>
          let selected := r.1
          .ok (((element.toggleClassIf checkboxIconClass (!selected.truthy)).toggleClass
            checkboxCheckedIconClass selected).toggleClass "selected" selected)
    else
      match returnMethod w this context element.data.selected [element.data.groupId] with
      | .error e => .error e
      | .ok r =>
          let selected := r.1.looseEq el_id
          .ok (((element.toggleClassIf radioIconClass (!selected)).toggleClassIf
            radioCheckedIconClass selected).toggleClassIf "selected" selected)
  else .ok element

/-- The function `updateContextmenuElement` (lines 398-426) called with `this`. The handler
`_map.contextmenu` is the host's; its `setDisabled` sets the element's disabled state. -/
def updateContextmenuElement (w : World) (this : Ref) (context : Props) (element : Element) :
    Except JsError Element :=
  match updateSelected w this context element with
  | .error e => .error e
  | .ok el =>
      match returnMethod w this context el.data.status [element.data.id] with
      | .error e => .error e
      | .ok r =>
          let status := if r.1.truthy then r.1 else Val.str "enabled"
          .ok { el with display := if status.eqLit "hidden" then "none" else ""
                        disabled := status.eqLit "disabled" }

/-- The value of `contextmenuOptions.excludeGlobal`: absent, `true`, or a list of ids. -/
inductive ExcludeGlobal where
  | absent
  | all
  | ids (l : List Val)
deriving DecidableEq, Repr

/-- The object `contextmenuOptions` that `addContextmenu` builds (lines 208, 242, 246). -/
structure ExtOptions where
  individuelItems : Nat
  excludeGlobal : ExcludeGlobal
deriving DecidableEq, Repr

/-- A layer or a map, as far as `onContextmenuShow` reads it. -/
structure Obj where
  props : Props
  _map : Option Ref
  contextmenuOptions : Option ExtOptions

/-- The heap: what each reference points to. -/
abbrev Heap := Ref → Obj

/-- The ids of the first `n` elements that have one (lines 455-459); reading past the end of
`contextmenu._items` is a `TypeError`. -/
def globalIds : Nat → List Element → Except JsError (List Val)
  | 0, _ => .ok []
  | _ + 1, [] => .error .typeError
  | n + 1, el :: rest =>
      match globalIds n rest with
      | .error e => .error e
      | .ok ids => .ok (if el.data.id.truthy then el.data.id :: ids else ids)

/-- The loop of lines 464-467: `setDisplay( i, $.inArray(id, hideGlobalId) == -1 )`. -/
def setDisplays (hideGlobalId : List Val) (items : List Element) : List Element :=
  items.map (fun el => { el with display := if decide (el.data.id ∈ hideGlobalId) then "none" else "" })

/-- The loop of lines 470-487, `lastWasSeperator` being the loop's variable. -/
def updateLoop (w : World) (this : Ref) (context : Props) :
    Bool → List Element → Except JsError (List Element)
  | _, [] => .ok []
  | lastWasSeperator, element :: rest =>
      match updateContextmenuElement w this context element with
      | .error e => .error e
      | .ok el =>
          let step : Element × Bool :=
            if el.display != "none" then
              if el.hasClass "leaflet-contextmenu-separator" then
                if lastWasSeperator then ({ el with display := "none" }, lastWasSeperator)
                else (el, true)
              else (el, el.hasClass "leaflet-contextmenu-item-header")
            else (el, lastWasSeperator)
          match updateLoop w this context step.2 rest with
          | .error e => .error e
          | .ok els => .ok (step.1 :: els)

/-- The function `onContextmenuShow` (lines 430-488) on the elements of `contextmenu._items`:
`this` is the map the listener is bound on, `relatedTarget` is `event.relatedTarget`.
The calls `fire('contextmenu.show')` and `closePopup()` do not touch the elements. -/
def onContextmenuShow (w : World) (h : Heap) (this : Ref) (relatedTarget : Option Ref)
    (items : List Element) : Except JsError (List Element) :=
  let _this := relatedTarget.getD this
  let items := items.map (fun el => { el with display := "" })
  match (h _this)._map with
  | none => .ok items
  | some map =>
      match (h map).contextmenuOptions with
      | none => .error .typeError
      | some mapOptions =>
          match globalIds mapOptions.individuelItems items with
          | .error e => .error e
          | .ok globalId =>
              match (h _this).contextmenuOptions with
              | none => .error .typeError
              | some options =>
                  let hideGlobalId :=
                    match options.excludeGlobal with
                    | .all => globalId
                    | .ids l => l
                    | .absent => []
                  updateLoop w _this (h _this).props true (setDisplays hideGlobalId items)

end ContextmenuExtend

namespace BsContextmenu

/-- The list `ps` is what the loop of lines 155-158 visits from `p`: each object is the
`contextmenuOptions.parent` of the one before, nearest first, and the last has no parent. -/
def IsParentChain (h : Heap) : Option Ref → List Ref → Prop
  | p, [] => p = none
  | p, r :: rs =>
      p = some r ∧ ∃ o, (h r).contextmenuOptions = some o ∧ IsParentChain h o.parent rs

/-- The built item `b` is a copy of `item`: same icon, text, context and
`dontCloseOnClick`, and its click handler wraps the user's `onClick`. -/
def BuiltFrom (item : Item) (b : BuiltItem) : Prop :=
  b.icon = item.icon ∧ b.text = item.text ∧ b.context = item.context ∧
    b.dontCloseOnClick = item.dontCloseOnClick ∧
    b.onClick.map (fun p => p.onClick) = item.onClick

/-- The stored items of the objects `objs`, in menu order. -/
def menuItems (h : Heap) (objs : List Ref) : List Item :=
  objs.flatMap (fun r => ((h r).contextmenuOptions.getD contextmenuOptions).items)

/-- The built items of a button-group list, headers left out. -/
def entryItems (l : List Entry) : List BuiltItem :=
  l.filterMap (fun e => match e with
    | .item b => some b
    | .header _ => none)

/-- The built items of a menu, in menu order. -/
def builtItems (content : List ButtonGroup) : List BuiltItem :=
  content.flatMap (fun g => entryItems g.list)

/-- The item needs a generated id: it has an `onClick` and no non-empty id of its own. -/
def needsId (item : Item) : Bool :=
  item.onClick.isSome && !truthy item.id

/-- The objects the menu is composed from, for a parent chain `ps` of the source. -/
def composedFrom (h : Heap) (cm : ContextMenu) (event : Event) (ps : List Ref) : List Ref :=
  eventSource cm event :: ps ++ (if firedOnMap h cm event then [] else [cm._map])

end BsContextmenu

namespace BsContextmenu

/-- A sample item: it has an id, an `onClick`, a context of its own, and asks to keep the
menu open. -/
def sampleItemZoom : Item :=
  { id := some "zoom", icon := "fa-search", text := "Zoom", onClick := some 11,
    context := some 2, dontCloseOnClick := some true, _map := none }

/-- A sample item with an `onClick`, without id and without context. -/
def sampleItemInfo : Item :=
  { id := none, icon := "fa-info", text := "Info", onClick := some 12,
    context := none, dontCloseOnClick := none, _map := none }

/-- A sample item without `onClick`. -/
def sampleItemTitle : Item :=
  { id := some "title", icon := "", text := "Group", onClick := none,
    context := none, dontCloseOnClick := none, _map := none }

/-- A sample item with an `onClick` and an empty id. -/
def sampleItemCenter : Item :=
  { id := some "", icon := "fa-map", text := "Center", onClick := some 13,
    context := none, dontCloseOnClick := some false, _map := none }

/-- A sample heap: the map is object 0, a marker (object 1) has the group (object 2) as
parent; every other reference is an object without contextmenu. -/
def sampleHeap : Heap := fun r =>
  if r = 0 then
    { contextmenuOptions := some { items := [sampleItemCenter], header := "Map", parent := none,
                                   width := none },
      hasContextmenuEvent := false, _map := none, getLatLng := none, getContainer := 100,
      getCenter := { lat := 0, lng := 0 } }
  else if r = 1 then
    { contextmenuOptions := some { items := [sampleItemZoom, sampleItemInfo], header := "Marker",
                                   parent := some 2, width := some 120 },
      hasContextmenuEvent := true, _map := some 0, getLatLng := some { lat := 55, lng := 12 },
      getContainer := 0, getCenter := { lat := 0, lng := 0 } }
  else if r = 2 then
    { contextmenuOptions := some { items := [sampleItemTitle], header := "", parent := none,
                                   width := none },
      hasContextmenuEvent := false, _map := some 0, getLatLng := none, getContainer := 0,
      getCenter := { lat := 0, lng := 0 } }
  else
    { contextmenuOptions := none, hasContextmenuEvent := false, _map := none,
      getLatLng := none, getContainer := 0, getCenter := { lat := 0, lng := 0 } }

/-- The handler of the sample map, before any menu was shown. -/
def sampleMenu : ContextMenu :=
  { _map := 0, contextmenuMarker := none, popup := none }

/-- A contextmenu event fired on the marker (object 1) of the sample heap. -/
def sampleEvent : Event :=
  { latlng := { lat := 1, lng := 2 }, calledFrom := some 1, originalTarget := 7 }

end BsContextmenu

namespace ContextmenuExtend

open BsContextmenu (Ref JsError)

/-- Two clicks on a checkbox element: the callback run on the element, then on the result. -/
def clickTwice (w : World) (this : Ref) (context : Props) (popupWithContextmenu : Bool)
    (el : Element) : Element :=
  (defaultContextmenuCheckboxCallback w this context popupWithContextmenu
    (defaultContextmenuCheckboxCallback w this context popupWithContextmenu el).1).1

/-- A context without any named property. -/
def noProps : Props := fun _ => Val.undefined

/-- A world whose functions all return `undefined`. -/
def sampleWorld : World := fun _ _ _ => Val.undefined

/-- A checkbox element as created with the icon class of an unchecked box, its `selected`
data absent and its `onSelect` the function 22. -/
def sampleCheckbox : Element :=
  { classes := ["leaflet-contextmenu-item", "icon-checkbox"], display := "", disabled := false,
    data := { id := Val.str "showGrid", type := Val.str "checkbox", groupId := Val.undefined,
              status := Val.undefined, selected := Val.undefined, onSelect := Val.fn 22 } }

/-- A checkbox element that carries neither icon class. -/
def bareCheckbox : Element :=
  { classes := ["leaflet-contextmenu-item"], display := "", disabled := false,
    data := { id := Val.str "showGrid", type := Val.str "checkbox", groupId := Val.undefined,
              status := Val.undefined, selected := Val.undefined, onSelect := Val.fn 22 } }

/-- A plain menu element with the id `id`, without status function. -/
def plainElement (id : String) : Element :=
  { classes := ["leaflet-contextmenu-item"], display := "", disabled := false,
    data := { id := Val.str id, type := Val.undefined, groupId := Val.undefined,
              status := Val.undefined, selected := Val.undefined, onSelect := Val.undefined } }

/-- A sample heap: the map is object 0 and has one item of its own; layer 1 excludes two
global items by id, layer 2 excludes all global items. -/
def layerHeap : Heap := fun r =>
  if r = 0 then
    { props := noProps, _map := none,
      contextmenuOptions := some { individuelItems := 1, excludeGlobal := ExcludeGlobal.absent } }
  else if r = 1 then
    { props := noProps, _map := some 0,
      contextmenuOptions := some
        { individuelItems := 0,
          excludeGlobal := ExcludeGlobal.ids [Val.str "showCoordinates", Val.str "addMarker"] } }
  else
    { props := noProps, _map := some 0,
      contextmenuOptions := some { individuelItems := 0, excludeGlobal := ExcludeGlobal.all } }

/-- The elements of a sample menu. -/
def sampleItems : List Element :=
  [plainElement "showCoordinates", plainElement "centerMapHere"]

end ContextmenuExtend

/-! ## Lemmas on the handler of `leaflet-bootstrap-contextmenu.js` -/

namespace BsContextmenu

theorem heap_set_same (h : Heap) (r : Ref) (o : Obj) : (h.set r o) r = o := by
  simp [Heap.set]

theorem digitChar_value (d : Nat) (hd : d < 10) : (Nat.digitChar d).toNat - 48 = d := by
  interval_cases d <;> rfl

theorem toDigitsCore_value :
    ∀ (fuel n : Nat) (ds : List Char), n < fuel →
      (Nat.toDigitsCore 10 fuel n ds).foldl (fun a c => 10 * a + (c.toNat - 48)) 0
        = ds.foldl (fun a c => 10 * a + (c.toNat - 48)) n := by
  intro fuel
  induction fuel with
  | zero => intro n ds hn; omega
  | succ f ih =>
      intro n ds hn
      have hmod : n % 10 < 10 := Nat.mod_lt _ (by decide)
      simp only [Nat.toDigitsCore]
      split
      · rename_i h0
        have : n = n % 10 := by omega
        simp only [List.foldl_cons, Nat.mul_zero, Nat.zero_add, digitChar_value _ hmod]
        rw [← this]
      · rename_i h0
        have hlt : n / 10 < f := by omega
        rw [ih (n / 10) _ hlt]
        simp only [List.foldl_cons, digitChar_value _ hmod]
        congr 1
        omega

theorem toString_nat_injective (a b : Nat) (hab : toString a = toString b) : a = b := by
  have h1 : Nat.toDigits 10 a = Nat.toDigits 10 b := by
    have : (Nat.toDigits 10 a).asString = (Nat.toDigits 10 b).asString := hab
    exact congrArg String.data this
  have ha := toDigitsCore_value (a + 1) a [] (Nat.lt_succ_self a)
  have hb := toDigitsCore_value (b + 1) b [] (Nat.lt_succ_self b)
  simp only [List.foldl_nil] at ha hb
  unfold Nat.toDigits at h1
  rw [h1] at ha
  omega

theorem itemId_injective (a b : Nat)
    (hab : "itemId" ++ toString a = "itemId" ++ toString b) : a = b := by
  apply toString_nat_injective
  have := congrArg String.data hab
  simp only [String.data_append] at this
  exact String.ext (List.append_cancel_left this)

theorem parentLoop_of_chain (h : Heap) :
    ∀ (ps : List Ref) (p : Option Ref) (fuel : Nat), IsParentChain h p ps → ps.length ≤ fuel →
      parentLoop h fuel p = .ok ps := by
  intro ps
  induction ps with
  | nil =>
      intro p fuel hc _
      simp only [IsParentChain] at hc
      subst hc
      cases fuel <;> rfl
  | cons r rs ih =>
      intro p fuel hc hf
      obtain ⟨hp, o, ho, hrest⟩ := hc
      subst hp
      cases fuel with
      | zero => simp at hf
      | succ n =>
          have hn : rs.length ≤ n := by simpa using hf
          simp [parentLoop, optionsOf, ho, ih o.parent n hrest hn]

theorem chain_options (h : Heap) :
    ∀ (ps : List Ref) (p : Option Ref), IsParentChain h p ps →
      ∀ r ∈ ps, ∃ o, (h r).contextmenuOptions = some o := by
  intro ps
  induction ps with
  | nil => intro p _ r hr; simp at hr
  | cons x xs ih =>
      intro p hc r hr
      obtain ⟨_, o, ho, hrest⟩ := hc
      rcases List.mem_cons.mp hr with rfl | hmem
      · exact ⟨o, ho⟩
      · exact ih o.parent hrest r hmem

theorem buildItems_append (latlng : LatLng) :
    ∀ (a b : List Item) (n : Nat),
      buildItems latlng n (a ++ b) =
        ((buildItems latlng n a).1 ++ (buildItems latlng (buildItems latlng n a).2 b).1,
          (buildItems latlng (buildItems latlng n a).2 b).2) := by
  intro a
  induction a with
  | nil => intro b n; simp [buildItems]
  | cons x xs ih => intro b n; simp [buildItems, ih]

theorem entryItems_append (a b : List Entry) :
    entryItems (a ++ b) = entryItems a ++ entryItems b := by
  simp [entryItems, List.filterMap_append]

theorem entryItems_map_item (l : List BuiltItem) : entryItems (l.map Entry.item) = l := by
  induction l with
  | nil => rfl
  | cons x xs ih => simpa [entryItems, List.filterMap_cons] using ih

/-- When every object has options, the outer loop returns one group per object: the header (if pushed) followed by the built items; the built items of the whole menu are those of one pass over all items. -/
theorem buildGroups_spec (h : Heap) (latlng : LatLng) (many : Bool) :
    ∀ (objs : List Ref) (n w : Nat), (∀ r ∈ objs, ∃ o, (h r).contextmenuOptions = some o) →
      ∃ res, buildGroups h latlng many objs n w = .ok res ∧
        List.Forall₂ (fun r g => ∃ o, (h r).contextmenuOptions = some o ∧ ∃ k,
            g.list = (if many && !o.items.isEmpty && truthy (some o.header)
                        then [Entry.header o.header] else [])
                      ++ (buildItems latlng k o.items).1.map Entry.item) objs res.1 ∧
        builtItems res.1 = (buildItems latlng n (menuItems h objs)).1 := by
  intro objs
  induction objs with
  | nil =>
      intro n w _
      exact ⟨([], w), rfl, List.Forall₂.nil, by simp [builtItems, menuItems, buildItems]⟩
  | cons r rs ih =>
      intro n w hall
      obtain ⟨o, ho⟩ := hall r (List.mem_cons_self _ _)
      obtain ⟨res, hres, hf, hb⟩ :=
        ih (buildItems latlng n o.items).2 (max w (o.width.getD 0))
          (fun x hx => hall x (List.mem_cons_of_mem _ hx))
      have hbg : buildGroups h latlng many (r :: rs) n w = .ok
          ({ list := (if many && !o.items.isEmpty && truthy (some o.header)
                        then [Entry.header o.header] else [])
                      ++ (buildItems latlng n o.items).1.map Entry.item,
             small := true, vertical := true, fullWidth := true, border := true } :: res.1,
            res.2) := by
        simp only [buildGroups, optionsOf, ho, hres]
      refine ⟨_, hbg, ?_, ?_⟩
      · exact List.Forall₂.cons ⟨o, ho, n, rfl⟩ hf
      · have hm : menuItems h (r :: rs) = o.items ++ menuItems h rs := by
          simp [menuItems, ho]
        rw [hm, buildItems_append]
        simp only [builtItems, List.flatMap_cons] at hb ⊢
        rw [hb, entryItems_append, entryItems_map_item]
        congr 1
        split <;> simp [entryItems]

theorem show_ok (fuel : Nat) (h : Heap) (cm : ContextMenu) (event : Event) (ps : List Ref)
    (hchain : IsParentChain h (some (eventSource cm event)) (eventSource cm event :: ps))
    (hmap : firedOnMap h cm event = false → (h cm._map).contextmenuOptions ≠ none)
    (hfuel : ps.length ≤ fuel) :
    ∃ g gs w,
      buildGroups h (menuLatLng h cm event)
        (decide (1 < (composedFrom h cm event ps).length)) (composedFrom h cm event ps) 0 100
        = .ok (g :: gs, w) ∧
      List.Forall₂ (fun r g => ∃ o, (h r).contextmenuOptions = some o ∧ ∃ k,
            g.list = (if decide (1 < (composedFrom h cm event ps).length) && !o.items.isEmpty
                          && truthy (some o.header)
                        then [Entry.header o.header] else [])
                      ++ (buildItems (menuLatLng h cm event) k o.items).1.map Entry.item)
        (composedFrom h cm event ps) (g :: gs) ∧
      builtItems (g :: gs) =
        (buildItems (menuLatLng h cm event) 0 (menuItems h (composedFrom h cm event ps))).1 ∧
      _show fuel h cm event = .ok
        { cm with
          contextmenuMarker := some
            { latlng := menuLatLng h cm event,
              opacity := if firedOnMap h cm event then 100 else 0 }
          popup := some
            { width := w, className := "leaflet-popup-contextmenu", content := g :: gs,
              latlng := menuLatLng h cm event,
              _source :=
                if firedOnMap h cm event then none
                else if (h (eventSource cm event)).getLatLng.isSome
                  then some (eventSource cm event) else none,
              isOpen := true } } := by
  obtain ⟨_, so, hso, hrest⟩ := hchain
  have hloop := parentLoop_of_chain h ps so.parent fuel hrest hfuel
  have hobjs : objectList fuel h cm event = .ok (composedFrom h cm event ps) := by
    simp only [objectList, optionsOf, hso, hloop, composedFrom]
    cases firedOnMap h cm event <;> rfl
  have hall : ∀ r ∈ composedFrom h cm event ps, ∃ o, (h r).contextmenuOptions = some o := by
    intro r hr
    simp only [composedFrom, List.mem_cons, List.mem_append] at hr
    rcases hr with (hr | hr) | hr
    · exact ⟨so, hr ▸ hso⟩
    · exact chain_options h ps so.parent hrest r hr
    · cases hfm : firedOnMap h cm event with
      | true => simp [hfm] at hr
      | false =>
          simp only [hfm, Bool.false_eq_true, if_false, List.mem_singleton] at hr
          subst hr
          exact Option.ne_none_iff_exists'.mp (hmap hfm)
  obtain ⟨res, hres, hf, hb⟩ :=
    buildGroups_spec h (menuLatLng h cm event)
      (decide (1 < (composedFrom h cm event ps).length)) (composedFrom h cm event ps) 0 100 hall
  obtain ⟨gl, w⟩ := res
  cases gl with
  | nil => simp [composedFrom] at hf
  | cons g gs =>
      refine ⟨g, gs, w, hres, hf, hb, ?_⟩
      simp only [_show, hobjs, hres]
      simp

end BsContextmenu

/-! ## Theorems on `leaflet-bootstrap-contextmenu.js` -/

namespace BsContextmenu

theorem buildItem_builtFrom (latlng : LatLng) (n : Nat) (item : Item) :
    BuiltFrom item (buildItem latlng n item).1 := by
  unfold buildItem BuiltFrom
  cases h : item.onClick <;> simp

theorem buildItems_builtFrom (latlng : LatLng) :
    ∀ (items : List Item) (n : Nat),
      List.Forall₂ BuiltFrom items (buildItems latlng n items).1 := by
  intro items
  induction items with
  | nil => intro n; exact List.Forall₂.nil
  | cons x xs ih =>
      intro n
      exact List.Forall₂.cons (buildItem_builtFrom latlng n x) (ih _)

theorem entryItems_group (c : Bool) (s : String) (l : List BuiltItem) :
    entryItems ((if c then [Entry.header s] else []) ++ l.map Entry.item) = l := by
  rw [entryItems_append, entryItems_map_item]
  cases c <;> simp [entryItems]

/-- C1. When the source and every object on its parent chain `ps` have `contextmenuOptions`
(and the map too, when the event was not fired on the map container), `_show` returns and
opens a popup whose content has one group per object, in this order: the object the event
was called from (`event.calledFrom`, or the map when absent), then the parents `ps`, nearest
first, and last the map, appended exactly when the event was not fired on the map container.
The built items of each group are copies of that object's stored items, in stored order. -/
theorem show_groups_order (fuel : Nat) (h : Heap) (cm : ContextMenu) (event : Event)
    (ps : List Ref)
    (hchain : IsParentChain h (some (event.calledFrom.getD cm._map))
      (event.calledFrom.getD cm._map :: ps))
    (hmap : (h cm._map).getContainer ≠ event.originalTarget →
      (h cm._map).contextmenuOptions ≠ none)
    (hfuel : ps.length ≤ fuel) :
    ∃ cm' p, _show fuel h cm event = .ok cm' ∧ cm'.popup = some p ∧
      List.Forall₂
        (fun r g => ∃ o, (h r).contextmenuOptions = some o ∧
          List.Forall₂ BuiltFrom o.items (entryItems g.list))
        (event.calledFrom.getD cm._map :: ps ++
          (if (h cm._map).getContainer = event.originalTarget then [] else [cm._map]))
        p.content := by
  have hmap' : firedOnMap h cm event = false → (h cm._map).contextmenuOptions ≠ none := by
    intro hf
    apply hmap
    simpa [firedOnMap] using hf
  obtain ⟨g, gs, w, -, hf, -, hshow⟩ := show_ok fuel h cm event ps hchain hmap' hfuel
  refine ⟨_, _, hshow, rfl, ?_⟩
  have hobjs : (event.calledFrom.getD cm._map :: ps ++
      (if (h cm._map).getContainer = event.originalTarget then [] else [cm._map]))
      = composedFrom h cm event ps := by
    simp [composedFrom, eventSource, firedOnMap]
  rw [hobjs]
  refine List.Forall₂.imp ?_ hf
  rintro r g ⟨o, ho, k, hk⟩
  refine ⟨o, ho, ?_⟩
  rw [hk, entryItems_group]
  exact buildItems_builtFrom _ _ _

theorem firedOnMap_eq_false (h : Heap) (cm : ContextMenu) (event : Event)
    (hmap : (h cm._map).getContainer ≠ event.originalTarget →
      (h cm._map).contextmenuOptions ≠ none) :
    firedOnMap h cm event = false → (h cm._map).contextmenuOptions ≠ none := by
  intro hf
  apply hmap
  simpa [firedOnMap] using hf

theorem composedFrom_eq (h : Heap) (cm : ContextMenu) (event : Event) (ps : List Ref) :
    (event.calledFrom.getD cm._map :: ps ++
      (if (h cm._map).getContainer = event.originalTarget then [] else [cm._map]))
      = composedFrom h cm event ps := by
  simp [composedFrom, eventSource, firedOnMap]

/-- C7. The marker and the popup that `_show` sets get the same position: `event.latlng`
when the event was fired on the map container; otherwise what the source's `getLatLng`
returns when the source has that method, and `event.latlng` when it has none. The popup's
`_source` is the source exactly when the event was not fired on the map and the source has
`getLatLng`, and `null` (`none`) otherwise. -/
theorem show_position (fuel : Nat) (h : Heap) (cm : ContextMenu) (event : Event)
    (ps : List Ref)
    (hchain : IsParentChain h (some (event.calledFrom.getD cm._map))
      (event.calledFrom.getD cm._map :: ps))
    (hmap : (h cm._map).getContainer ≠ event.originalTarget →
      (h cm._map).contextmenuOptions ≠ none)
    (hfuel : ps.length ≤ fuel) :
    ∃ cm' m p, _show fuel h cm event = .ok cm' ∧ cm'.contextmenuMarker = some m ∧
      cm'.popup = some p ∧ m.latlng = p.latlng ∧
      ((h cm._map).getContainer = event.originalTarget → p.latlng = event.latlng) ∧
      ((h cm._map).getContainer ≠ event.originalTarget →
        ∀ q, (h (event.calledFrom.getD cm._map)).getLatLng = some q → p.latlng = q) ∧
      ((h cm._map).getContainer ≠ event.originalTarget →
        (h (event.calledFrom.getD cm._map)).getLatLng = none → p.latlng = event.latlng) ∧
      (p._source = some (event.calledFrom.getD cm._map) ↔
        ((h cm._map).getContainer ≠ event.originalTarget ∧
          (h (event.calledFrom.getD cm._map)).getLatLng ≠ none)) ∧
      (p._source = none ↔
        ¬ ((h cm._map).getContainer ≠ event.originalTarget ∧
          (h (event.calledFrom.getD cm._map)).getLatLng ≠ none)) := by
  obtain ⟨g, gs, w, -, -, -, hshow⟩ :=
    show_ok fuel h cm event ps hchain (firedOnMap_eq_false h cm event hmap) hfuel
  refine ⟨_, _, _, hshow, rfl, rfl, rfl, ?_⟩
  simp only [menuLatLng, firedOnMap, eventSource]
  by_cases hc : (h cm._map).getContainer = event.originalTarget
  · simp [hc]
  · cases hg : (h (event.calledFrom.getD cm._map)).getLatLng <;> simp [hc, hg]

theorem buildItem_snd (latlng : LatLng) (n : Nat) (x : Item) :
    (buildItem latlng n x).2 = n + (if needsId x then 1 else 0) := by
  unfold buildItem needsId
  cases h : x.onClick with
  | none => simp
  | some f => cases ht : truthy x.id <;> simp

theorem buildItems_getElem? (latlng : LatLng) :
    ∀ (items : List Item) (n k : Nat),
      (buildItems latlng n items).1[k]? =
        items[k]?.map (fun x => (buildItem latlng (n + (items.take k).countP needsId) x).1) := by
  intro items
  induction items with
  | nil => intro n k; simp [buildItems]
  | cons x xs ih =>
      intro n k
      cases k with
      | zero => simp [buildItems]
      | succ j =>
          simp only [buildItems, List.getElem?_cons_succ, ih, buildItem_snd, List.take_succ_cons,
            List.countP_cons]
          cases needsId x <;> simp [Nat.add_comm, Nat.add_left_comm]

theorem buildItems_length (latlng : LatLng) :
    ∀ (items : List Item) (n : Nat), (buildItems latlng n items).1.length = items.length := by
  intro items
  induction items with
  | nil => intro n; rfl
  | cons x xs ih => intro n; simp [buildItems, ih]

theorem countP_take_lt (items : List Item) :
    ∀ (j k : Nat) (x : Item), j < k → items[j]? = some x → needsId x = true →
      (items.take j).countP needsId < (items.take k).countP needsId := by
  intro j k x hjk hx hn
  have hj : j < items.length := by
    by_contra hc
    rw [List.getElem?_eq_none (by omega)] at hx
    exact Option.noConfusion hx
  have h1 : (items.take (j + 1)).countP needsId = (items.take j).countP needsId + 1 := by
    rw [List.take_succ, hx]
    simp [List.countP_append, hn]
  have h2 : (items.take (j + 1)).countP needsId ≤ (items.take k).countP needsId := by
    have hsub : (items.take (j + 1)).Sublist (items.take k) := by
      have : items.take (j + 1) = (items.take k).take (j + 1) := by
        rw [List.take_take]
        congr 1
        omega
      rw [this]
      exact List.take_sublist _ _
    exact hsub.countP_le _
  omega

/-- C5. In the lists `_show` hands to the button groups, taken in menu order, the k-th built
item is a copy of the k-th stored item. An item without `onClick` gets the id `null` and no
click handler; an item with `onClick` keeps its id when it is non-empty and otherwise gets
`'itemId' + n`, where `n` is the number of earlier items of the whole menu that needed a
generated id. Two different items that needed a generated id get different ids. -/
theorem show_item_ids (fuel : Nat) (h : Heap) (cm : ContextMenu) (event : Event)
    (ps : List Ref)
    (hchain : IsParentChain h (some (event.calledFrom.getD cm._map))
      (event.calledFrom.getD cm._map :: ps))
    (hmap : (h cm._map).getContainer ≠ event.originalTarget →
      (h cm._map).contextmenuOptions ≠ none)
    (hfuel : ps.length ≤ fuel) :
    ∃ cm' p, _show fuel h cm event = .ok cm' ∧ cm'.popup = some p ∧
      (builtItems p.content).length = (menuItems h (composedFrom h cm event ps)).length ∧
      (∀ (k : Nat) (item : Item), (menuItems h (composedFrom h cm event ps))[k]? = some item →
        ∃ b, (builtItems p.content)[k]? = some b ∧ BuiltFrom item b ∧
          (item.onClick = none → b.id = none ∧ b.onClick = none) ∧
          (item.onClick ≠ none → ∀ s, item.id = some s → s ≠ "" → b.id = some s) ∧
          (item.onClick ≠ none → (item.id = none ∨ item.id = some "") →
            b.id = some ("itemId" ++ toString
              (((menuItems h (composedFrom h cm event ps)).take k).countP needsId)))) ∧
      (∀ (j k : Nat) (ij ik : Item) (bj bk : BuiltItem), j ≠ k →
        (menuItems h (composedFrom h cm event ps))[j]? = some ij →
        (menuItems h (composedFrom h cm event ps))[k]? = some ik →
        needsId ij = true → needsId ik = true →
        (builtItems p.content)[j]? = some bj → (builtItems p.content)[k]? = some bk →
        bj.id ≠ bk.id) := by
  obtain ⟨g, gs, w, -, -, hb, hshow⟩ :=
    show_ok fuel h cm event ps hchain (firedOnMap_eq_false h cm event hmap) hfuel
  refine ⟨_, _, hshow, rfl, ?_, ?_, ?_⟩
  · show (builtItems (g :: gs)).length = _
    rw [hb, buildItems_length]
  · intro k item hk
    refine ⟨(buildItem (menuLatLng h cm event)
      (0 + ((menuItems h (composedFrom h cm event ps)).take k).countP needsId) item).1, ?_,
      buildItem_builtFrom _ _ _, ?_, ?_, ?_⟩
    · show (builtItems (g :: gs))[k]? = _
      rw [hb, buildItems_getElem?, hk]
      rfl
    · intro hno
      simp [buildItem, hno]
    · intro hon s hs hne
      obtain ⟨f, hf⟩ := Option.ne_none_iff_exists'.mp hon
      simp [buildItem, hf, hs, truthy, hne]
    · intro hon hid
      obtain ⟨f, hf⟩ := Option.ne_none_iff_exists'.mp hon
      rcases hid with hid | hid <;> simp [buildItem, hf, hid, truthy]
  · intro j k ij ik bj bk hjk hij hik hnj hnk hbj hbk
    have hbj' : (builtItems (g :: gs))[j]? = some bj := hbj
    have hbk' : (builtItems (g :: gs))[k]? = some bk := hbk
    rw [hb, buildItems_getElem?, hij] at hbj'
    rw [hb, buildItems_getElem?, hik] at hbk'
    simp only [Option.map_some', Option.some.injEq, Nat.zero_add] at hbj' hbk'
    have gen : ∀ (n : Nat) (x : Item), needsId x = true →
        (buildItem (menuLatLng h cm event) n x).1.id = some ("itemId" ++ toString n) := by
      intro n x hx
      unfold needsId at hx
      cases hf : x.onClick with
      | none => simp [hf] at hx
      | some f =>
          have ht : truthy x.id = false := by simpa [hf] using hx
          simp [buildItem, hf, ht]
    rw [← hbj', ← hbk', gen _ _ hnj, gen _ _ hnk]
    intro heq
    have hcount := itemId_injective _ _ (Option.some.inj heq)
    rcases Nat.lt_or_gt_of_ne hjk with hlt | hgt
    · have := countP_take_lt _ j k ij hlt hij hnj
      omega
    · have := countP_take_lt _ k j ik hgt hik hnk
      omega

/-- C2. For an object whose current options are `old` (the defaults when it has none yet):
after `appendContextmenuItems(items)` its items are `old.items` followed by `items`, after
`prependContextmenuItems(items)` they are `items` followed by `old.items`, a single item `x`
counting as the list `[x]`; both calls return the object itself and leave `header` and
`parent` as they were. -/
theorem addContextmenuItems_append_prepend (h : Heap) (self : Ref) :
    let old := (h self).contextmenuOptions.getD contextmenuOptions
    let holds : ItemsArg → List Item → Prop := fun arg l =>
      ((appendContextmenuItems h self arg).2 = self ∧
        ∃ o, ((appendContextmenuItems h self arg).1 self).contextmenuOptions = some o ∧
          o.items = old.items ++ l ∧ o.header = old.header ∧ o.parent = old.parent) ∧
      ((prependContextmenuItems h self arg).2 = self ∧
        ∃ o, ((prependContextmenuItems h self arg).1 self).contextmenuOptions = some o ∧
          o.items = l ++ old.items ∧ o.header = old.header ∧ o.parent = old.parent)
    (∀ l : List Item, holds (ItemsArg.array l) l) ∧ (∀ x : Item, holds (ItemsArg.single x) [x]) := by
  intro old holds
  have key : ∀ arg, holds arg arg.toArray := by
    intro arg
    simp only [holds, old, appendContextmenuItems, prependContextmenuItems, addContextmenuItems,
      setContextmenuOptions, heap_set_same, extend, emptyPatch, Option.getD_none, Option.getD_some]
    refine ⟨⟨trivial, ?_⟩, ⟨trivial, ?_⟩⟩ <;>
    · split <;> simp
  exact ⟨fun l => key (ItemsArg.array l), fun x => key (ItemsArg.single x)⟩

/-- Witness for C1 on the sample heap: a marker whose parent is a group, clicked off the map
container, gives the groups of the marker, the group and the map, in that order. -/
theorem show_groups_order_witness :
    IsParentChain sampleHeap (some 1) [1, 2] ∧
    ∃ cm' p, _show 1 sampleHeap sampleMenu sampleEvent = .ok cm' ∧ cm'.popup = some p ∧
      List.Forall₂
        (fun r g => ∃ o, (sampleHeap r).contextmenuOptions = some o ∧
          List.Forall₂ BuiltFrom o.items (entryItems g.list))
        [1, 2, 0] p.content :=
  ⟨⟨rfl, _, rfl, rfl, _, rfl, rfl⟩,
    show_groups_order 1 sampleHeap sampleMenu sampleEvent [2] ⟨rfl, _, rfl, rfl, _, rfl, rfl⟩
      (fun _ => by decide) (by decide)⟩

/-- Witness for C7 on the sample heap: the marker has `getLatLng`, so the popup is placed at
the marker's own position and has the marker as `_source`. -/
theorem show_position_witness :
    IsParentChain sampleHeap (some 1) [1, 2] ∧
    ∃ cm' m p, _show 1 sampleHeap sampleMenu sampleEvent = .ok cm' ∧
      cm'.contextmenuMarker = some m ∧ cm'.popup = some p ∧ m.latlng = p.latlng ∧
      p.latlng = { lat := 55, lng := 12 } ∧ p._source = some 1 := by
  obtain ⟨cm', m, p, h1, h2, h3, h4, -, h6, -, h8, -⟩ :=
    show_position 1 sampleHeap sampleMenu sampleEvent [2] ⟨rfl, _, rfl, rfl, _, rfl, rfl⟩
      (fun _ => by decide) (by decide)
  exact ⟨⟨rfl, _, rfl, rfl, _, rfl, rfl⟩, cm', m, p, h1, h2, h3, h4,
    h6 (by decide) _ rfl, h8.mpr ⟨by decide, by decide⟩⟩

/-- Witness for C5 on the sample heap: the ids of the four built items. -/
theorem show_item_ids_witness :
    IsParentChain sampleHeap (some 1) [1, 2] ∧
    ∃ cm' p, _show 1 sampleHeap sampleMenu sampleEvent = .ok cm' ∧ cm'.popup = some p ∧
      (builtItems p.content).map (fun b => b.id)
        = [some "zoom", some "itemId0", none, some "itemId1"] := by
  obtain ⟨cm', p, h1, h2, -, -, -⟩ :=
    show_item_ids 1 sampleHeap sampleMenu sampleEvent [2] ⟨rfl, _, rfl, rfl, _, rfl, rfl⟩
      (fun _ => by decide) (by decide)
  refine ⟨⟨rfl, _, rfl, rfl, _, rfl, rfl⟩, cm', p, h1, h2, ?_⟩
  have h3 : _show 1 sampleHeap sampleMenu sampleEvent = .ok cm' := h1
  have h4 : _show 1 sampleHeap sampleMenu sampleEvent = .ok _ := rfl
  rw [h4] at h3
  cases h3
  cases h2
  rfl

/-- C3, the code at a failing input. On the sample heap the item `Zoom` has the context 2 and
the item `Info` has none (its owner is object 1). A click on either built item calls the
user's function with `this` undefined (`none`): neither the item's context nor the owner. -/
theorem show_click_this_unbound :
    ∃ cm' p, _show 1 sampleHeap sampleMenu sampleEvent = .ok cm' ∧ cm'.popup = some p ∧
      (builtItems p.content).map (fun b => (b.text, b.context, (click cm' b).2)) =
        [("Zoom", some 2, [Effect.call 11 none { lat := 55, lng := 12 }, Effect.hide]),
         ("Info", none, [Effect.call 12 none { lat := 55, lng := 12 }, Effect.hide]),
         ("Group", none, []),
         ("Center", none, [Effect.call 13 none { lat := 55, lng := 12 }, Effect.hide])] :=
  ⟨_, _, rfl, rfl, rfl⟩

/-- C4, the code at a failing input. On the sample heap the item `Zoom` has
`dontCloseOnClick` true; a click on its built item still runs `_hide` after the user's
function, and the popup that was open is closed, as for the items without the flag. -/
theorem show_click_always_hides :
    ∃ cm' p, _show 1 sampleHeap sampleMenu sampleEvent = .ok cm' ∧ cm'.popup = some p ∧
      p.isOpen = true ∧
      (builtItems p.content).map
          (fun b => (b.text, b.dontCloseOnClick, (click cm' b).2,
            (click cm' b).1.popup.map (fun q => q.isOpen))) =
        [("Zoom", some true,
            [Effect.call 11 none { lat := 55, lng := 12 }, Effect.hide], some false),
         ("Info", none,
            [Effect.call 12 none { lat := 55, lng := 12 }, Effect.hide], some false),
         ("Group", none, [], some true),
         ("Center", some false,
            [Effect.call 13 none { lat := 55, lng := 12 }, Effect.hide], some false)] :=
  ⟨_, _, rfl, rfl, rfl, rfl⟩

end BsContextmenu

/-! ## Theorems on `_leaflet-contextmenu-extend.js` -/

namespace ContextmenuExtend

open BsContextmenu (Ref JsError)

theorem mem_addClass (el : Element) (d c : String) :
    c ∈ (el.addClass d).classes ↔ c = d ∨ c ∈ el.classes := by
  unfold Element.addClass Element.hasClass
  by_cases h : d ∈ el.classes
  · simp only [h, decide_True, if_true]
    constructor
    · exact Or.inr
    · rintro (rfl | hc)
      · exact h
      · exact hc
  · simp [h, or_comm]

theorem mem_removeClass (el : Element) (d c : String) :
    c ∈ (el.removeClass d).classes ↔ c ≠ d ∧ c ∈ el.classes := by
  simp [Element.removeClass, and_comm]

theorem mem_toggleClassIf (el : Element) (d c : String) (b : Bool) :
    c ∈ (el.toggleClassIf d b).classes ↔ (c = d ∧ b = true) ∨ (c ≠ d ∧ c ∈ el.classes) := by
  unfold Element.toggleClassIf
  cases b
  · simp [mem_removeClass]
  · simp only [if_true, mem_addClass, and_true]
    by_cases h : c = d <;> simp [h]

theorem data_toggleClassIf (el : Element) (d : String) (b : Bool) :
    (el.toggleClassIf d b).data = el.data := by
  unfold Element.toggleClassIf Element.addClass Element.removeClass
  cases b
  · rfl
  · simp only [if_true]; split <;> rfl

theorem mem_checkboxToggle (el : Element) (c : String) :
    c ∈ (checkboxToggle el).classes ↔
      (c = checkboxCheckedIconClass ∧ "selected" ∉ el.classes) ∨
      (c = checkboxIconClass ∧ "selected" ∈ el.classes) ∨
      (c = "selected" ∧ "selected" ∉ el.classes) ∨
      (c ≠ checkboxCheckedIconClass ∧ c ≠ checkboxIconClass ∧ c ≠ "selected" ∧ c ∈ el.classes) := by
  have h1 : checkboxIconClass ≠ checkboxCheckedIconClass := by decide
  have h2 : "selected" ≠ checkboxCheckedIconClass := by decide
  have h3 : "selected" ≠ checkboxIconClass := by decide
  unfold checkboxToggle
  simp only [mem_toggleClassIf, Element.hasClass, Bool.not_eq_true', decide_eq_false_iff_not,
    Bool.not_not, decide_eq_true_eq]
  by_cases ha : c = checkboxCheckedIconClass
  · subst ha
    simp [h1.symm, h2.symm]
  · by_cases hb : c = checkboxIconClass
    · subst hb
      simp [h1, h3.symm]
    · by_cases hc : c = "selected"
      · subst hc
        simp [h2, h3]
      · simp [ha, hb, hc]


theorem data_checkboxToggle (el : Element) : (checkboxToggle el).data = el.data := by
  unfold checkboxToggle
  simp only [data_toggleClassIf]

theorem returnMethod_fn (w : World) (this : Ref) (context : Props) (method : Val)
    (arg : List Val) (f : Nat) (hf : lookupFunc context method = Val.fn f) :
    returnMethod w this context method arg = .ok (w f this arg, [Effect.call f this arg]) := by
  simp [returnMethod, hf, Val.truthy]

/-- C9, amended. `defaultContextmenuCheckboxCallback` flips a checkbox element: afterwards
it has class `selected` iff it did not have it before, `icon-checkbox-checked` iff it is
selected and `icon-checkbox` iff it is not; when the item's `onSelect` is a function it is
called once, with the id and the new state. Two runs of the callback restore `selected` and
every class other than the two icon classes; they restore all classes when the element
carried, before, exactly the icon class that matches its state. -/
theorem checkbox_callback_flips (w : World) (this : Ref) (context : Props)
    (popupWithContextmenu : Bool) (el : Element) :
    let r := defaultContextmenuCheckboxCallback w this context popupWithContextmenu el
    let twice := clickTwice w this context popupWithContextmenu el
    ("selected" ∈ r.1.classes ↔ "selected" ∉ el.classes) ∧
    (checkboxCheckedIconClass ∈ r.1.classes ↔ "selected" ∈ r.1.classes) ∧
    (checkboxIconClass ∈ r.1.classes ↔ "selected" ∉ r.1.classes) ∧
    (∀ f, lookupFunc context el.data.onSelect = Val.fn f →
      r.2 = .ok (Effect.call f this [el.data.id, Val.bool (decide ("selected" ∈ r.1.classes))]
        :: (if popupWithContextmenu then [Effect.updateContent] else []))) ∧
    ("selected" ∈ twice.classes ↔ "selected" ∈ el.classes) ∧
    (∀ c, c ≠ checkboxIconClass → c ≠ checkboxCheckedIconClass →
      (c ∈ twice.classes ↔ c ∈ el.classes)) ∧
    ((checkboxCheckedIconClass ∈ el.classes ↔ "selected" ∈ el.classes) →
      (checkboxIconClass ∈ el.classes ↔ "selected" ∉ el.classes) →
      ∀ c, c ∈ twice.classes ↔ c ∈ el.classes) := by
  have h1 : checkboxIconClass ≠ checkboxCheckedIconClass := by decide
  have h2 : "selected" ≠ checkboxCheckedIconClass := by decide
  have h3 : "selected" ≠ checkboxIconClass := by decide
  have hr : ∀ e : Element,
      (defaultContextmenuCheckboxCallback w this context popupWithContextmenu e).1
        = checkboxToggle e := by
    intro e
    unfold defaultContextmenuCheckboxCallback
    simp only
    split <;> rfl
  have hsel : ∀ e : Element, ("selected" ∈ (checkboxToggle e).classes ↔ "selected" ∉ e.classes) := by
    intro e
    rw [mem_checkboxToggle]
    simp [h2, h3]
  have htwice : ∀ c, c ∈ (checkboxToggle (checkboxToggle el)).classes ↔
      (c = checkboxCheckedIconClass ∧ "selected" ∈ el.classes) ∨
      (c = checkboxIconClass ∧ "selected" ∉ el.classes) ∨
      (c = "selected" ∧ "selected" ∈ el.classes) ∨
      (c ≠ checkboxCheckedIconClass ∧ c ≠ checkboxIconClass ∧ c ≠ "selected" ∧ c ∈ el.classes) := by
    intro c
    rw [mem_checkboxToggle, hsel el, mem_checkboxToggle]
    by_cases ha : c = checkboxCheckedIconClass
    · subst ha; simp [h1.symm, h2.symm]
    · by_cases hb : c = checkboxIconClass
      · subst hb; simp [h1, h3.symm]
      · by_cases hc : c = "selected"
        · subst hc; simp [h2, h3]
        · simp [ha, hb, hc]
  intro r twice
  have hr1 : r.1 = checkboxToggle el := hr el
  have ht : twice = checkboxToggle (checkboxToggle el) := by
    show (defaultContextmenuCheckboxCallback w this context popupWithContextmenu
      (defaultContextmenuCheckboxCallback w this context popupWithContextmenu el).1).1 = _
    rw [hr, hr]
  refine ⟨?_, ?_, ?_, ?_, ?_, ?_, ?_⟩
  · rw [hr1]; exact hsel el
  · rw [hr1, hsel el, mem_checkboxToggle]
    simp [h1, h1.symm, h2.symm]
  · rw [hr1, hsel el, mem_checkboxToggle]
    simp [h1, h1.symm, h3.symm]
  · intro f hf
    have hd : decide ("selected" ∈ r.1.classes) = !el.hasClass "selected" := by
      rw [hr1]
      by_cases hs : "selected" ∈ el.classes
      · simp [Element.hasClass, hs, (hsel el)]
      · simp [Element.hasClass, hs, (hsel el)]
    rw [hd]
    show (defaultContextmenuCheckboxCallback w this context popupWithContextmenu el).2 = _
    unfold defaultContextmenuCheckboxCallback callMethod
    simp only [data_checkboxToggle]
    rw [returnMethod_fn w this context _ _ f hf]
    rfl
  · rw [ht, htwice]
    simp [h2, h3]
  · intro c hc1 hc2
    rw [ht, htwice]
    by_cases hc : c = "selected"
    · subst hc; simp [h2, h3]
    · simp [hc1, hc2, hc]
  · intro hA hB c
    rw [ht, htwice]
    by_cases ha : c = checkboxCheckedIconClass
    · subst ha; simp [h1.symm, h2.symm, hA]
    · by_cases hb : c = checkboxIconClass
      · subst hb; simp [h1, h3.symm, hB]
      · by_cases hc : c = "selected"
        · subst hc; simp [h2, h3]
        · simp [ha, hb, hc]

/-- C9, counterexample to "applying the callback twice restores the original classes": a
checkbox element without icon class has `icon-checkbox` after two runs; and the element
that `updateContextmenuElement` leaves when the `selected` method is absent has
`icon-checkbox` before two runs and not after. -/
theorem checkbox_twice_not_restored :
    ("icon-checkbox" ∈ (clickTwice sampleWorld 1 noProps false bareCheckbox).classes ∧
      "icon-checkbox" ∉ bareCheckbox.classes) ∧
    ∃ el, updateContextmenuElement sampleWorld 1 noProps sampleCheckbox = .ok el ∧
      "icon-checkbox" ∈ el.classes ∧
      "icon-checkbox" ∉ (clickTwice sampleWorld 1 noProps false el).classes :=
  ⟨by decide, _, rfl, by decide⟩

/-- Witness for C9 on a sample checkbox whose `onSelect` is a function and whose classes
match its state. -/
theorem checkbox_callback_flips_witness :
    lookupFunc noProps sampleCheckbox.data.onSelect = Val.fn 22 ∧
    (defaultContextmenuCheckboxCallback sampleWorld 1 noProps true sampleCheckbox).2 =
      .ok [Effect.call 22 1 [Val.str "showGrid", Val.bool true], Effect.updateContent] ∧
    ∀ c, c ∈ (clickTwice sampleWorld 1 noProps true sampleCheckbox).classes ↔
      c ∈ sampleCheckbox.classes :=
  ⟨rfl, (checkbox_callback_flips sampleWorld 1 noProps true sampleCheckbox).2.2.2.1 22 rfl,
    (checkbox_callback_flips sampleWorld 1 noProps true sampleCheckbox).2.2.2.2.2.2
      (by decide) (by decide)⟩

theorem eqLit_iff (v : Val) (s : String) : v.eqLit s = true ↔ v = Val.str s := by
  cases v <;> simp [Val.eqLit]

/-- C8, the code at a failing input. Layer 1 excludes the id `showCoordinates` and layer 2
excludes all global items; the loop of lines 464-467 hides the element, but after
`onContextmenuShow` has run the element with id `showCoordinates` has display `''`. -/
theorem onContextmenuShow_excluded_shown :
    (setDisplays [Val.str "showCoordinates", Val.str "addMarker"] sampleItems).map
        (fun el => (el.data.id, el.display)) =
      [(Val.str "showCoordinates", "none"), (Val.str "centerMapHere", "")] ∧
    (∃ l, onContextmenuShow sampleWorld layerHeap 0 (some 1) sampleItems = .ok l ∧
      l.map (fun el => (el.data.id, el.display)) =
        [(Val.str "showCoordinates", ""), (Val.str "centerMapHere", "")]) ∧
    (∃ l, onContextmenuShow sampleWorld layerHeap 0 (some 2) sampleItems = .ok l ∧
      l.map (fun el => (el.data.id, el.display)) =
        [(Val.str "showCoordinates", ""), (Val.str "centerMapHere", "")]) :=
  ⟨rfl, ⟨_, rfl, rfl⟩, ⟨_, rfl, rfl⟩⟩

end ContextmenuExtend
